import Mathlib

/-
Verification of the terraform-provider-keep repository: a shallow embedding of
the provider's pure logic (file-hash change detection, CSV matcher validation,
mapping/extraction/workflow resource handlers and the HTTP client's error
normalisation) together with theorems about the behaviours the design
documentation describes.

Conventions of the embedding:
* Go byte strings are Lean `String`s (`List Char` data); raw file bytes are
  `List Nat` (each < 256).
* Go's `strings.Split`, `strings.Join`, `strings.Contains`,
  `strings.TrimSpace` are re-implemented with Go's exact semantics
  (`goSplit`, `goJoin`, `goContains`, `goTrimSpace`).
* The JSON bodies the HTTP client decodes are modelled as already-parsed
  JSON trees (`JVal`); `none : Option JVal` stands for a byte string that is
  not valid JSON.  The raw byte string is carried separately where the Go
  code embeds it verbatim in messages.
* The remote Keep backend is external to the repository; client calls are
  modelled as pure functions over a backend state (a list of records), with
  the backend assumed to answer a successful create by echoing the created
  record under a caller-supplied fresh id.
-/

namespace Keep

/-! ## Go string primitives -/

/-- Whether `pat` is a prescribed beginning of `l` (Go `strings.HasPrefix` on
rune lists); used to implement Go `strings.Split`. -/
def listStarts : List Char → List Char → Bool
  | [], _ => true
  | _ :: _, [] => false
  | a :: as, b :: bs => a == b && listStarts as bs

/-- Split a rune list around each leftmost non-overlapping occurrence of a
non-empty separator, with explicit fuel (one unit per consumed rune).  With
`fuel ≥ s.length` this is exactly Go `strings.Split`. -/
def splitLF (sep : List Char) : Nat → List Char → List Char → List (List Char)
  | 0, s, acc => [acc.reverse ++ s]
  | _ + 1, [], acc => [acc.reverse]
  | fuel + 1, c :: rest, acc =>
    if listStarts sep (c :: rest) then
      acc.reverse :: splitLF sep fuel (rest.drop (sep.length - 1)) []
    else
      splitLF sep fuel rest (c :: acc)

/-- Join rune lists with a separator between consecutive elements
(Go `strings.Join`). -/
def joinL (sep : List Char) : List (List Char) → List Char
  | [] => []
  | [x] => x
  | x :: xs => x ++ sep ++ joinL sep xs

/-- Go `strings.Split`.  For an empty separator Go explodes the string into
its runes; all uses in this repository have a non-empty separator. -/
def goSplit (sep s : String) : List String :=
  match sep.data with
  | [] => s.data.map (fun c => String.mk [c])
  | _ :: _ => (splitLF sep.data s.data.length s.data []).map String.mk

/-- Go `strings.Join`. -/
def goJoin (sep : String) (xs : List String) : String :=
  String.mk (joinL sep.data (xs.map String.data))

/-- Search for `sub` as a contiguous segment of `l` (helper for
`goContains`). -/
def hasSub (sub : List Char) : List Char → Bool
  | [] => sub.isEmpty
  | c :: rest => listStarts sub (c :: rest) || hasSub sub rest

/-- Go `strings.Contains s sub`. -/
def goContains (s sub : String) : Bool :=
  hasSub sub.data s.data

/-- Go `unicode.IsSpace`: the Unicode white-space runes recognised by
`strings.TrimSpace`. -/
def goIsSpace (c : Char) : Bool :=
  let n := c.toNat
  n == 9 || n == 10 || n == 11 || n == 12 || n == 13 || n == 32 ||
  n == 133 || n == 160 || n == 5760 || (8192 ≤ n && n ≤ 8202) ||
  n == 8232 || n == 8233 || n == 8239 || n == 8287 || n == 12288

/-- Go `strings.TrimSpace`. -/
def goTrimSpace (s : String) : String :=
  String.mk (((s.data.dropWhile goIsSpace).reverse.dropWhile goIsSpace).reverse)

/-- First field of a Go `strings.Split`, i.e. the text before the first
occurrence of the separator (the whole string when the separator is absent). -/
def headSplit (sep part : String) : String :=
  (goSplit sep part).headD ""

/-- Rendering of a Go `[]string` by `fmt.Sprintf("%v", xs)`: the elements
space-separated inside square brackets. -/
def fmtStrSlice (xs : List String) : String :=
  "[" ++ goJoin " " xs ++ "]"

/-! ## SHA-256 (Go `crypto/sha256` over raw file bytes) -/

/-- Right rotation of a 32-bit word. -/
def rotr32 (n x : Nat) : Nat :=
  ((x >>> n) ||| (x <<< (32 - n))) % 4294967296

/-- SHA-256 `Ch` function. -/
def shaCh (x y z : Nat) : Nat :=
  (x &&& y) ^^^ ((x ^^^ 4294967295) &&& z)

/-- SHA-256 `Maj` function. -/
def shaMaj (x y z : Nat) : Nat :=
  (x &&& y) ^^^ (x &&& z) ^^^ (y &&& z)

/-- SHA-256 big sigma 0. -/
def bsig0 (x : Nat) : Nat := rotr32 2 x ^^^ rotr32 13 x ^^^ rotr32 22 x

/-- SHA-256 big sigma 1. -/
def bsig1 (x : Nat) : Nat := rotr32 6 x ^^^ rotr32 11 x ^^^ rotr32 25 x

/-- SHA-256 small sigma 0. -/
def ssig0 (x : Nat) : Nat := rotr32 7 x ^^^ rotr32 18 x ^^^ (x >>> 3)

/-- SHA-256 small sigma 1. -/
def ssig1 (x : Nat) : Nat := rotr32 17 x ^^^ rotr32 19 x ^^^ (x >>> 10)

/-- SHA-256 round constants. -/
def K256 : List Nat :=
  [1116352408, 1899447441, 3049323471, 3921009573, 961987163,
   1508970993, 2453635748, 2870763221, 3624381080, 310598401,
   607225278, 1426881987, 1925078388, 2162078206, 2614888103,
   3248222580, 3835390401, 4022224774, 264347078, 604807628,
   770255983, 1249150122, 1555081692, 1996064986, 2554220882,
   2821834349, 2952996808, 3210313671, 3336571891, 3584528711,
   113926993, 338241895, 666307205, 773529912, 1294757372,
   1396182291, 1695183700, 1986661051, 2177026350, 2456956037,
   2730485921, 2820302411, 3259730800, 3345764771, 3516065817,
   3600352804, 4094571909, 275423344, 430227734, 506948616,
   659060556, 883997877, 958139571, 1322822218, 1537002063,
   1747873779, 1955562222, 2024104815, 2227730452, 2361852424,
   2428436474, 2756734187, 3204031479, 3329325298]

/-- SHA-256 initial hash value. -/
def H256 : List Nat :=
  [1779033703, 3144134277, 1013904242, 2773480762,
   1359893119, 2600822924, 528734635, 1541459225]

/-- Big-endian 8-byte encoding of a length in bits. -/
def beBytes8 (n : Nat) : List Nat :=
  [(n >>> 56) % 256, (n >>> 48) % 256, (n >>> 40) % 256, (n >>> 32) % 256,
   (n >>> 24) % 256, (n >>> 16) % 256, (n >>> 8) % 256, n % 256]

/-- SHA-256 message padding: append `0x80`, zero bytes up to 56 mod 64, then
the original bit length as 8 big-endian bytes. -/
def sha256pad (msg : List Nat) : List Nat :=
  let len := msg.length
  let zeros := (119 - (len % 64)) % 64
  msg ++ [128] ++ List.replicate zeros 0 ++ beBytes8 (8 * len)

/-- Split a padded message into 64-byte blocks (fuel-driven; fuel `≥` the
number of blocks suffices). -/
def toBlocks : Nat → List Nat → List (List Nat)
  | 0, _ => []
  | _, [] => []
  | fuel + 1, l => l.take 64 :: toBlocks fuel (l.drop 64)

/-- Combine bytes into big-endian 32-bit words. -/
def toWords : List Nat → List Nat
  | a :: b :: c :: d :: rest => (((a * 256 + b) * 256 + c) * 256 + d) :: toWords rest
  | _ => []

/-- Extend the 16 block words to the 64-entry SHA-256 message schedule. -/
def sched (w0 : List Nat) : List Nat :=
  (List.range 48).foldl
    (fun w _ =>
      let n := w.length
      w ++ [(ssig1 (w.getD (n - 2) 0) + w.getD (n - 7) 0 +
             ssig0 (w.getD (n - 15) 0) + w.getD (n - 16) 0) % 4294967296])
    w0

/-- One SHA-256 round on the eight working variables. -/
def roundStep (st : Nat × Nat × Nat × Nat × Nat × Nat × Nat × Nat)
    (kw : Nat × Nat) : Nat × Nat × Nat × Nat × Nat × Nat × Nat × Nat :=
  let (a, b, c, d, e, f, g, h) := st
  let t1 := (h + bsig1 e + shaCh e f g + kw.1 + kw.2) % 4294967296
  let t2 := (bsig0 a + shaMaj a b c) % 4294967296
  ((t1 + t2) % 4294967296, a, b, c, (d + t1) % 4294967296, e, f, g)

/-- SHA-256 compression of one 64-byte block into the running hash. -/
def compress (h : List Nat) (block : List Nat) : List Nat :=
  let w := sched (toWords block)
  let st0 := (h.getD 0 0, h.getD 1 0, h.getD 2 0, h.getD 3 0,
              h.getD 4 0, h.getD 5 0, h.getD 6 0, h.getD 7 0)
  let (a, b, c, d, e, f, g, hh) := (K256.zip w).foldl roundStep st0
  [(h.getD 0 0 + a) % 4294967296, (h.getD 1 0 + b) % 4294967296,
   (h.getD 2 0 + c) % 4294967296, (h.getD 3 0 + d) % 4294967296,
   (h.getD 4 0 + e) % 4294967296, (h.getD 5 0 + f) % 4294967296,
   (h.getD 6 0 + g) % 4294967296, (h.getD 7 0 + hh) % 4294967296]

/-- SHA-256 digest of a byte list, as eight 32-bit words. -/
def sha256words (msg : List Nat) : List Nat :=
  (toBlocks (sha256pad msg).length (sha256pad msg)).foldl compress H256

/-- Lower-case hex digit. -/
def hexDigit (n : Nat) : Char :=
  Char.ofNat (if n < 10 then 48 + n else 87 + n)

/-- Eight-hex-digit rendering of a 32-bit word (`fmt.Sprintf("%x", ...)` on
the digest renders each byte as two lower-case hex digits). -/
def hexOfWord (w : Nat) : List Char :=
  [hexDigit ((w >>> 28) % 16), hexDigit ((w >>> 24) % 16),
   hexDigit ((w >>> 20) % 16), hexDigit ((w >>> 16) % 16),
   hexDigit ((w >>> 12) % 16), hexDigit ((w >>> 8) % 16),
   hexDigit ((w >>> 4) % 16), hexDigit (w % 16)]

/-- The hex digest string Go's `calculateFileHash` produces for a byte
content: SHA-256 then `%x` formatting. -/
def sha256hex (msg : List Nat) : String :=
  String.mk ((sha256words msg).flatMap hexOfWord)

/-! ## File hasher (`helper_hash.go`) -/

/-- `calculateFileHash`: the file system read is modelled by an
`Option (List Nat)` (`none` = unreadable file); a readable file yields the
SHA-256 hex digest of its bytes.  The Go read-error message embeds the OS
error text, abstracted here. -/
def calculateFileHash (fileContent : Option (List Nat)) : Except String String :=
  match fileContent with
  | none => .error "cannot read file"
  | some content => .ok (sha256hex content)

/-- `FileHasher.CustomizeDiff`: result `ok none` = no change staged,
`ok (some h)` = the hash field was marked force-new and staged with `h`
(`d.ForceNew` followed by `d.SetNew`), `error` = diff-time failure.
`oldHash` is `d.Get(h.HashField)`, the digest stored in state. -/
def customizeDiff (filePath : String) (fileContent : Option (List Nat))
    (oldHash : String) : Except String (Option String) :=
  if filePath == "" then .ok none
  else
    match calculateFileHash fileContent with
    | .error e => .error ("cannot calculate file hash: " ++ e)
    | .ok hash => if oldHash != hash then .ok (some hash) else .ok none

/-! ## Parsed JSON values and the HTTP client (`client.go`) -/

/-- A parsed JSON document.  The HTTP client's `json.Unmarshal` calls are
modelled structurally over this tree; an unparsable byte body is represented
by `none : Option JVal` at the use sites. -/
inductive JVal where
  | null
  | bool (b : Bool)
  | num (n : Int)
  | str (s : String)
  | arr (xs : List JVal)
  | obj (fields : List (String × JVal))

/-- Field lookup in a JSON object (later duplicate keys win, as in Go's
`encoding/json`). -/
def getField (fields : List (String × JVal)) (k : String) : Option JVal :=
  fields.foldl (fun acc p => if p.1 == k then some p.2 else acc) none

/-- Unmarshal a JSON value into a Go `map[string]string`: `null` leaves the
nil map, an object needs every value to be a string (`null` values leave the
zero string); anything else is an unmarshal error. -/
def decodeStringMap : JVal → Option (List (String × String))
  | .null => some []
  | .obj fs =>
    fs.mapM (fun p =>
      match p.2 with
      | .str s => some (p.1, s)
      | .null => some (p.1, "")
      | _ => none)
  | _ => none

/-- Unmarshal into the anonymous struct `{ Detail map[string]string }` used
by `isScopesError`: a missing `detail` field leaves the nil map. -/
def decodeDetail : JVal → Option (List (String × String))
  | .null => some []
  | .obj fs =>
    match getField fs "detail" with
    | none => some []
    | some v => decodeStringMap v
  | _ => none

/-- `ErrorResponse` struct of the API client. -/
structure ErrorResponse where
  error : String
  details : String
deriving DecidableEq

/-- Unmarshal a string-typed struct field: absent or `null` leaves the zero
string; a non-string value is an unmarshal error. -/
def getStrField (fs : List (String × JVal)) (k : String) : Option String :=
  match getField fs k with
  | none => some ""
  | some (.str s) => some s
  | some .null => some ""
  | some _ => none

/-- Unmarshal a JSON value into `ErrorResponse`. -/
def decodeErrorResponse : JVal → Option ErrorResponse
  | .null => some ⟨"", ""⟩
  | .obj fs =>
    match getStrField fs "error", getStrField fs "details" with
    | some e, some d => some ⟨e, d⟩
    | _, _ => none
  | _ => none

/-- `isScopesError`: detects a body whose `detail` map has an entry valued
`"Missing scope"`, and renders the missing scope names. -/
def isScopesError (body : Option JVal) : Bool × String :=
  match body with
  | none => (false, "")
  | some v =>
    match decodeDetail v with
    | none => (false, "")
    | some detail =>
      if detail.length > 0 then
        if ((detail.filter (fun p => p.2 == "Missing scope")).map (fun p => p.1)).length > 0 then
          (true, "Missing required scopes: " ++
            fmtStrSlice ((detail.filter (fun p => p.2 == "Missing scope")).map (fun p => p.1)))
        else (false, "")
      else (false, "")

/-- The list of scope names `isScopesError` extracts (statement helper). -/
def scopesOf (body : Option JVal) : List String :=
  match body with
  | none => []
  | some v =>
    match decodeDetail v with
    | none => []
    | some detail => (detail.filter (fun p => p.2 == "Missing scope")).map (fun p => p.1)

/-- The fallback error pair `doReq` builds when the body yields no usable
structured error: a generic status-code `ErrorResponse` carrying the raw
body, and the formatted Go error. -/
def genericFailure (status : Nat) (raw : String) : Option ErrorResponse × String :=
  (some ⟨"request failed with status " ++ toString status, raw⟩,
   "API request failed with status " ++ toString status ++ ": " ++ raw)

/-- `Client.doReq` after the response arrived: `status` is the HTTP status,
`raw` the response body bytes, `body` their JSON parse (`none` when the
bytes are not JSON).  Success returns the body; failure returns the
`*ErrorResponse` (when non-nil) and the Go `error` text. -/
def doReq (status : Nat) (raw : String) (body : Option JVal) :
    Except (Option ErrorResponse × String) (Option JVal) :=
  if status == 200 || status == 201 then .ok body
  else
    let (isScope, scopeDetails) := isScopesError body
    if isScope then
      .error (some ⟨"Insufficient permissions", scopeDetails⟩,
              "API request failed: insufficient permissions")
    else
      match body.bind decodeErrorResponse with
      | some er =>
        if er.error != "" || er.details != "" then
          .error (some er, "API request failed with status " ++ toString status)
        else .error (genericFailure status raw)
      | none => .error (genericFailure status raw)

/-! ## CSV rows and matcher validation (`resource_mapping.go`) -/

/-- Go map insertion on an association list (overwrite on an existing key,
append otherwise); keys stay unique. -/
def mapInsert (row : List (String × String)) (k v : String) : List (String × String) :=
  if row.any (fun p => p.1 == k) then
    row.map (fun p => if p.1 == k then (k, v) else p)
  else row ++ [(k, v)]

/-- One CSV record turned into a keyed row, as in `resourceCreateMapping`:
`row[headers[j]] = cell` for each cell. -/
def rowFromRecord (headers record : List String) : List (String × String) :=
  (headers.zip record).foldl (fun row kv => mapInsert row kv.1 kv.2) []

/-- The keyed rows built from a CSV header line and its data records. -/
def rowsFromCSV (headers : List String) (records : List (List String)) :
    List (List (String × String)) :=
  records.map (rowFromRecord headers)

/-- Key set of a row (the Go map's key set, in insertion order). -/
def rowKeys (row : List (String × String)) : List String :=
  row.map (fun p => p.1)

/-- Keep the first occurrence of each key (accumulator-based). -/
def dedupAux (seen : List String) : List String → List String
  | [] => []
  | k :: rest =>
    if seen.contains k then dedupAux seen rest
    else k :: dedupAux (k :: seen) rest

/-- Distinct keys of a key list (a Go map never holds duplicates). -/
def dedupKeys (l : List String) : List String :=
  dedupAux [] l

/-- Go `sort.Strings`. -/
def sortStrings (l : List String) : List String :=
  l.mergeSort (fun a b => a ≤ b)

/-- The column name a matcher part references: the part is trimmed, cut at
the first `=`, then at the first `!`, then at the first `~`, and trimmed
again. -/
def extractColumnName (part : String) : String :=
  goTrimSpace (headSplit "~" (headSplit "!" (headSplit "=" (goTrimSpace part))))

/-- The error text `validateMatchersAgainstCSV` produces for a matcher that
references a column absent from the CSV (column list sorted for
readability). -/
def matcherColumnError (matcher col : String) (cols : List String) : String :=
  "matcher \x27" ++ matcher ++ "\x27 references column \x27" ++ col ++
  "\x27 which is not present in the CSV file. Available columns: " ++
  fmtStrSlice (sortStrings (dedupKeys cols))

/-- Check every ` && `-separated part of one matcher against the available
columns. -/
def checkMatcherParts (matcher : String) (cols : List String) :
    List String → Except String Unit
  | [] => .ok ()
  | part :: rest =>
    if cols.contains (extractColumnName part) then
      checkMatcherParts matcher cols rest
    else .error (matcherColumnError matcher (extractColumnName part) cols)

/-- Check a list of matchers in order, stopping at the first failure. -/
def checkMatchers (cols : List String) : List String → Except String Unit
  | [] => .ok ()
  | m :: rest =>
    match checkMatcherParts m cols (goSplit " && " m) with
    | .ok _ => checkMatchers cols rest
    | .error e => .error e

/-- `validateMatchersAgainstCSV`: an empty row list is rejected outright;
otherwise every referenced column must be a key of the first row. -/
def validateMatchersAgainstCSV (matchers : List String)
    (csvRows : List (List (String × String))) : Except String Unit :=
  match csvRows with
  | [] => .error "CSV file is empty"
  | row0 :: _ => checkMatchers (rowKeys row0) matchers

/-- Statement helper: the first part of one matcher whose referenced column
is not among `cols`, if any. -/
def firstMissingPart (cols : List String) : List String → Option String
  | [] => none
  | p :: ps =>
    if cols.contains (extractColumnName p) then firstMissingPart cols ps
    else some (extractColumnName p)

/-- Statement helper: the first matcher (with its missing column) that
references a column not among `cols`, if any. -/
def firstMissing (cols : List String) : List String → Option (String × String)
  | [] => none
  | m :: rest =>
    match firstMissingPart cols (goSplit " && " m) with
    | some c => some (m, c)
    | none => firstMissing cols rest

/-- `formatMatchers`: each matcher string split on ` && ` into the array
form the API expects. -/
def formatMatchers (matcherStrings : List String) : List (List String) :=
  matcherStrings.map (fun m => goSplit " && " m)

/-- A dynamically-typed Go value as `formatMatchersStringForState` receives
it: a `[]string`, a `[]interface{}` (whose elements may be nested
`[]interface{}`s or strings), a bare string, or anything else. -/
inductive GoVal where
  | str (s : String)
  | strList (xs : List String)
  | list (xs : List GoVal)
  | other

/-- `formatMatchersStringForState`: a `[]string` passes through; a
`[]interface{}` has each element joined with ` && ` when it is an array
(non-string parts become empty strings) or kept when it is a string, and
mapped to the empty string otherwise; any other input yields the empty
list. -/
def formatMatchersStringForState : GoVal → List String
  | .strList v => v
  | .list v =>
    v.map (fun m =>
      match m with
      | .list parts =>
        goJoin " && " (parts.map (fun p =>
          match p with
          | .str s => s
          | _ => ""))
      | .str s => s
      | _ => "")
  | _ => []

/-! ## Mapping resource handlers (`resource_mapping.go`) -/

/-- A mapping as stored by the backend (the fields the handlers read). -/
structure MappingRec where
  id : Nat
  name : String
  description : String
  priority : Int
  fileName : String
  matchers : List (List String)
deriving DecidableEq

/-- `checkDuplicateName`: error when some remote mapping has the wanted name
under an id different from `currentID` (ids rendered by `cast.ToString`). -/
def checkDuplicateName (mappings : List MappingRec) (name currentID : String) :
    Except String Unit :=
  if mappings.any (fun m => m.name == name && toString m.id != currentID) then
    .error ("mapping with name \x27" ++ name ++ "\x27 already exists")
  else .ok ()

/-- `cleanupDuplicateMappings`: delete every mapping that shares the name but
not the id; modelled as the backend state after those delete calls
succeeded. -/
def cleanupDuplicateMappings (mappings : List MappingRec)
    (currentID name : String) : List MappingRec :=
  mappings.filter (fun m => !(m.name == name && toString m.id != currentID))

/-- The local CSV file `resourceCreateMapping` reads: its base name, raw
bytes (for hashing) and parsed records split into the header line and data
records (`records[0]` / `records[1:]`). -/
structure CsvFile where
  fileName : String
  content : List Nat
  headers : List String
  records : List (List String)

/-- The mapping resource's configuration arguments. -/
structure MappingConfig where
  name : String
  description : String
  priority : Int
  matchers : List String

/-- `resourceCreateMapping` over a backend state: duplicate-name pre-check,
file presence check (`none` = `os.Stat` failure), hash, CSV row build,
matcher validation, backend create (which assigns `freshId` and echoes the
record), composite-id construction, then duplicate cleanup.  Returns the new
backend state and the resource id written to state. -/
def resourceCreateMapping (backend : List MappingRec) (freshId : Nat)
    (cfg : MappingConfig) (path : String) (file : Option CsvFile) :
    Except String (List MappingRec × String) :=
  match checkDuplicateName backend cfg.name "" with
  | .error e => .error e
  | .ok _ =>
    match file with
    | none => .error ("mapping file not found: " ++ path)
    | some f =>
      match validateMatchersAgainstCSV cfg.matchers (rowsFromCSV f.headers f.records) with
      | .error e => .error ("Invalid matchers: " ++ e)
      | .ok _ =>
        .ok (cleanupDuplicateMappings
              (backend ++ [⟨freshId, cfg.name, cfg.description, cfg.priority,
                f.fileName, formatMatchers cfg.matchers⟩])
              (toString freshId) cfg.name,
             toString freshId ++ ":" ++ sha256hex f.content)

/-- The composite-id handling repeated verbatim at the top of
`resourceReadMapping`, `resourceUpdateMapping` and `resourceDeleteMapping`:
an id containing `:` must split into exactly two parts, of which the first
is the backend mapping id; an id without `:` is used as is. -/
def extractMappingID (id : String) : Except String String :=
  if goContains id ":" then
    let parts := goSplit ":" id
    if parts.length != 2 then .error "invalid resource ID format"
    else .ok (parts.headD "")
  else .ok id

/-- Decimal digit accumulation; `none` on a non-digit rune. -/
def parseDigitsAux : List Char → Nat → Option Nat
  | [], acc => some acc
  | c :: rest, acc =>
    if 48 ≤ c.toNat && c.toNat ≤ 57 then
      parseDigitsAux rest (acc * 10 + (c.toNat - 48))
    else none

/-- Parse an optionally signed decimal integer (the shape of the ids this
provider handles); `none` on anything else. -/
def goParseInt (s : String) : Option Int :=
  match s.data with
  | [] => none
  | '-' :: rest =>
    match rest with
    | [] => none
    | _ => (parseDigitsAux rest 0).map (fun n => -(n : Int))
  | '+' :: rest =>
    match rest with
    | [] => none
    | _ => (parseDigitsAux rest 0).map (fun n => (n : Int))
  | cs => (parseDigitsAux cs 0).map (fun n => (n : Int))

/-- Go `cast.ToInt` on a string: parsed integer, `0` when unparsable. -/
def castToInt (s : String) : Int :=
  (goParseInt s).getD 0

/-- Outcome of a resource read: state cleared (id reset to empty) or the
record found and mirrored into state. -/
inductive MappingReadResult where
  | cleared
  | found (m : MappingRec)

/-- `resourceReadMapping`: split the composite id, then scan the mapping
list comparing `cast.ToInt` of both ids; a missing mapping clears the local
id without error. -/
def resourceReadMapping (backend : List MappingRec) (id : String) :
    Except String MappingReadResult :=
  match extractMappingID id with
  | .error e => .error e
  | .ok mappingID =>
    match backend.find? (fun m => (m.id : Int) == castToInt mappingID) with
    | some m => .ok (.found m)
    | none => .ok .cleared

/-- `resourceUpdateMapping` over a backend state: optional duplicate-name
check (against the raw state id), composite-id split, forced delete of the
old mapping when the content hash changed (requiring a numeric id), file
checks, validation, re-`POST` to the create endpoint (fresh id echo),
composite-id rebuild and duplicate cleanup. -/
def resourceUpdateMapping (backend : List MappingRec) (freshId : Nat)
    (id : String) (nameChanged hashChanged : Bool) (cfg : MappingConfig)
    (path : String) (file : Option CsvFile) :
    Except String (List MappingRec × String) :=
  match (if nameChanged then checkDuplicateName backend cfg.name id else .ok ()) with
  | .error e => .error e
  | .ok _ =>
    match extractMappingID id with
    | .error e => .error e
    | .ok mappingID =>
      match (if hashChanged then
               match goParseInt mappingID with
               | none => .error "invalid rule ID format"
               | some ruleID => .ok (backend.filter (fun m => (m.id : Int) != ruleID))
             else .ok backend : Except String (List MappingRec)) with
      | .error e => .error e
      | .ok afterDelete =>
        match file with
        | none => .error ("mapping file not found: " ++ path)
        | some f =>
          match validateMatchersAgainstCSV cfg.matchers (rowsFromCSV f.headers f.records) with
          | .error e => .error ("Invalid matchers: " ++ e)
          | .ok _ =>
            .ok (cleanupDuplicateMappings
                  (afterDelete ++ [⟨freshId, cfg.name, cfg.description,
                    cfg.priority, f.fileName, formatMatchers cfg.matchers⟩])
                  (toString freshId) cfg.name,
                 toString freshId ++ ":" ++ sha256hex f.content)

/-- `resourceDeleteMapping`: split the composite id, then issue the delete
call; any `doReq` failure is surfaced as an error (an `ErrorResponse` as
`API Error: ...`, otherwise the raw Go error). -/
def resourceDeleteMapping (id : String) (status : Nat) (raw : String)
    (body : Option JVal) : Except String Unit :=
  match extractMappingID id with
  | .error e => .error e
  | .ok _ =>
    match doReq status raw body with
    | .ok _ => .ok ()
    | .error (some er, _) => .error ("API Error: " ++ er.error ++ ". Details: " ++ er.details)
    | .error (none, msg) => .error ("error deleting mapping: " ++ msg)

/-! ## Extraction resource handlers (`resource_extraction.go`) -/

/-- An extraction as stored by the backend (`attr` models the Go `attribute`
field). -/
structure ExtractionRec where
  id : Nat
  name : String
  description : String
  priority : Int
  attr : String
  condition : String
  disabled : Bool
  regex : String
  pre : Bool
deriving DecidableEq

/-- The extraction resource's configuration arguments. -/
structure ExtractionConfig where
  name : String
  description : String
  priority : Int
  attr : String
  condition : String
  disabled : Bool
  regex : String
  pre : Bool

/-- `resourceCreateExtraction` over a backend state: the payload is posted
as is — no duplicate-name scan and no cleanup — and the returned id becomes
the resource id (backend create modelled as assigning `freshId`). -/
def resourceCreateExtraction (backend : List ExtractionRec) (freshId : Nat)
    (cfg : ExtractionConfig) : Except String (List ExtractionRec × String) :=
  let created : ExtractionRec :=
    ⟨freshId, cfg.name, cfg.description, cfg.priority, cfg.attr,
     cfg.condition, cfg.disabled, cfg.regex, cfg.pre⟩
  .ok (backend ++ [created], toString freshId)

/-- Outcome of an extraction read. -/
inductive ExtractionReadResult where
  | cleared
  | found (e : ExtractionRec)

/-- `resourceReadExtraction`: scan the extraction list by
`fmt.Sprintf("%v", id)`; a missing extraction clears the local id without
error. -/
def resourceReadExtraction (backend : List ExtractionRec) (id : String) :
    ExtractionReadResult :=
  match backend.find? (fun e => toString e.id == id) with
  | some e => .found e
  | none => .cleared

/-- `resourceUpdateExtraction` over a backend state: a plain `PUT` of the
full payload by id — again no duplicate-name scan and no cleanup. -/
def resourceUpdateExtraction (backend : List ExtractionRec) (id : String)
    (cfg : ExtractionConfig) : Except String (List ExtractionRec) :=
  .ok (backend.map (fun e =>
    if toString e.id == id then
      ⟨e.id, cfg.name, cfg.description, cfg.priority, cfg.attr,
       cfg.condition, cfg.disabled, cfg.regex, cfg.pre⟩
    else e))

/-- `resourceDeleteExtraction`: a resource absent from the extraction list
is dropped from state without a delete call; otherwise the delete call's Go
error is inspected and a message containing `405` is treated as
already-deleted. -/
def resourceDeleteExtraction (backend : List ExtractionRec) (id : String)
    (status : Nat) (raw : String) (body : Option JVal) : Except String Unit :=
  if !(backend.any (fun e => toString e.id == id)) then .ok ()
  else
    match doReq status raw body with
    | .ok _ => .ok ()
    | .error (er?, msg) =>
      if goContains msg "405" then .ok ()
      else
        match er? with
        | some er => .error ("API Error: " ++ er.error ++ ". Details: " ++ er.details)
        | none => .error ("error deleting extraction: " ++ msg)

/-! ## Workflow resource handlers (`resource_workflow.go`) -/

/-- `Client.GetWorkflow`: `doReq` followed by unmarshalling the body into a
`map[string]interface{}` (an object or `null`; anything else is an
unmarshal error with a nil `ErrorResponse`). -/
def getWorkflow (status : Nat) (raw : String) (body : Option JVal) :
    Except (Option ErrorResponse × String) (List (String × JVal)) :=
  match doReq status raw body with
  | .error e => .error e
  | .ok b =>
    match b with
    | some (.obj fs) => .ok fs
    | some .null => .ok []
    | _ => .error (none, "failed to unmarshal response")

/-- Outcome of a workflow read (`found` records the id written back). -/
inductive WorkflowReadResult where
  | cleared
  | found (id : String)

/-- `resourceReadWorkflow`: a fetch failure with a structured
`ErrorResponse` is surfaced as an error; a failure without one clears the
local id silently, as does a response whose `id` is missing or empty. -/
def resourceReadWorkflow (status : Nat) (raw : String) (body : Option JVal) :
    Except String WorkflowReadResult :=
  match getWorkflow status raw body with
  | .error (some er, _) => .error ("API Error: " ++ er.error ++ ". Details: " ++ er.details)
  | .error (none, _) => .ok .cleared
  | .ok fs =>
    match getField fs "id" with
    | some (.str id) => if id != "" then .ok (.found id) else .ok .cleared
    | _ => .ok .cleared

/-- `resourceDeleteWorkflow`: any delete-call failure is surfaced as an
error. -/
def resourceDeleteWorkflow (status : Nat) (raw : String) (body : Option JVal) :
    Except String Unit :=
  match doReq status raw body with
  | .ok _ => .ok ()
  | .error (some er, _) => .error ("API Error: " ++ er.error ++ ". Details: " ++ er.details)
  | .error (none, msg) => .error ("error deleting workflow: " ++ msg)

/-! ## Concrete sample data used to instantiate theorems -/
/-- A sample remote mapping. -/
def sampleMapping : MappingRec := ⟨1, "x", "", 0, "m.csv", [["severity"]]⟩

/-- A sample mapping configuration carrying the same name. -/
def sampleCfg : MappingConfig := ⟨"x", "", 0, ["severity=a"]⟩

/-- A sample CSV file with one header column and one record. -/
def sampleCsv : CsvFile := ⟨"m.csv", [], ["severity"], [["b"]]⟩

/-- A sample remote extraction. -/
def sampleExtraction : ExtractionRec := ⟨1, "x", "", 0, "a", "", false, "r", false⟩

/-- A sample extraction configuration carrying the same name. -/
def sampleExtractionCfg : ExtractionConfig := ⟨"x", "", 0, "a", "", false, "r", false⟩

/-- A sample missing-scope error body. -/
def sampleScopeBody : JVal :=
  .obj [("detail", .obj [("alert.rules:read", .str "Missing scope")])]

/-! ## Supporting lemmas about the Go string primitives -/

/-- FIPS 180-4 test vector: the digest of the empty byte string, validating
the SHA-256 embedding. -/
theorem sha256hex_empty :
    sha256hex [] =
      "e3b0c44298fc1c149afbf4c8996fb92427ae41e4649b934ca495991b7852b855" := by
  rfl

/-- FIPS 180-4 test vector: the digest of the bytes of `abc`. -/
theorem sha256hex_abc :
    sha256hex [97, 98, 99] =
      "ba7816bf8f01cfea414140de5dae2223b00361a396177a9cb410ff61f20015ad" := by
  rfl


theorem listStarts_append_drop : ∀ (sep l : List Char),
    listStarts sep l = true → sep ++ l.drop sep.length = l := by
  intro sep
  induction sep with
  | nil => intro l _; simp
  | cons a as ih =>
    intro l h
    cases l with
    | nil => simp [listStarts] at h
    | cons b bs =>
      simp only [listStarts, Bool.and_eq_true, beq_iff_eq] at h
      obtain ⟨hab, hrest⟩ := h
      subst hab
      simpa using ih bs hrest

theorem listStarts_append_right : ∀ (sep l r : List Char),
    listStarts sep l = true → listStarts sep (l ++ r) = true := by
  intro sep
  induction sep with
  | nil => intro l r _; simp [listStarts]
  | cons a as ih =>
    intro l r h
    cases l with
    | nil => simp [listStarts] at h
    | cons b bs =>
      simp only [listStarts, Bool.and_eq_true, beq_iff_eq] at h
      simp only [List.cons_append, listStarts, Bool.and_eq_true, beq_iff_eq]
      exact ⟨h.1, ih bs r h.2⟩

theorem hasSub_nil : ∀ l : List Char, hasSub [] l = true := by
  intro l
  cases l with
  | nil => rfl
  | cons c rest => simp [hasSub, listStarts]

theorem hasSub_append_left : ∀ (sub l r : List Char),
    hasSub sub l = true → hasSub sub (l ++ r) = true := by
  intro sub l
  induction l with
  | nil =>
    intro r h
    simp only [hasSub, List.isEmpty_iff] at h
    subst h
    simpa using hasSub_nil r
  | cons c rest ih =>
    intro r h
    simp only [hasSub, Bool.or_eq_true] at h
    simp only [List.cons_append, hasSub, Bool.or_eq_true]
    rcases h with h | h
    · exact Or.inl (by simpa using listStarts_append_right sub (c :: rest) r h)
    · exact Or.inr (ih r h)

theorem hasSub_single_of_mem {c : Char} : ∀ {l : List Char},
    c ∈ l → hasSub [c] l = true := by
  intro l
  induction l with
  | nil => intro h; cases h
  | cons d rest ih =>
    intro h
    simp only [hasSub, Bool.or_eq_true]
    rcases List.mem_cons.mp h with h | h
    · subst h
      simp [listStarts]
    · exact Or.inr (ih h)

theorem goContains_append_left (s t sub : String) :
    goContains s sub = true → goContains (s ++ t) sub = true := by
  intro h
  have : (s ++ t).data = s.data ++ t.data := by
    cases s; cases t; rfl
  unfold goContains at *
  rw [this]
  exact hasSub_append_left sub.data s.data t.data h

theorem splitLF_ne_nil (sep : List Char) :
    ∀ (fuel : Nat) (s acc : List Char), splitLF sep fuel s acc ≠ [] := by
  intro fuel
  induction fuel with
  | zero => intro s acc; simp [splitLF]
  | succ n ih =>
    intro s acc
    cases s with
    | nil => simp [splitLF]
    | cons c rest =>
      simp only [splitLF]
      split
      · simp
      · exact ih rest (c :: acc)

theorem joinL_cons_of_ne_nil (sep x : List Char) {l : List (List Char)}
    (h : l ≠ []) : joinL sep (x :: l) = x ++ sep ++ joinL sep l := by
  cases l with
  | nil => exact absurd rfl h
  | cons y ys => rfl

theorem joinL_splitLF (sep : List Char) (hsep : sep ≠ []) :
    ∀ (fuel : Nat) (s acc : List Char),
      joinL sep (splitLF sep fuel s acc) = acc.reverse ++ s := by
  intro fuel
  induction fuel with
  | zero => intro s acc; simp [splitLF, joinL]
  | succ n ih =>
    intro s acc
    cases s with
    | nil => simp [splitLF, joinL]
    | cons c rest =>
      simp only [splitLF]
      split
      · next hst =>
        rw [joinL_cons_of_ne_nil sep acc.reverse
            (splitLF_ne_nil sep n (rest.drop (sep.length - 1)) [])]
        rw [ih (rest.drop (sep.length - 1)) []]
        have hdrop : sep ++ rest.drop (sep.length - 1) = c :: rest := by
          have := listStarts_append_drop sep (c :: rest) hst
          cases sep with
          | nil => exact absurd rfl hsep
          | cons a as => simpa [List.drop] using this
        simp [List.append_assoc, hdrop]
      · next hst =>
        rw [ih rest (c :: acc)]
        simp

theorem goJoin_goSplit (sep s : String) (h : sep ≠ "") :
    goJoin sep (goSplit sep s) = s := by
  obtain ⟨sd⟩ := sep
  obtain ⟨ld⟩ := s
  have hd : sd ≠ [] := by
    intro hh
    subst hh
    exact h rfl
  cases sd with
  | nil => exact absurd rfl hd
  | cons a as =>
    show String.mk (joinL (a :: as)
      (((splitLF (a :: as) ld.length ld []).map String.mk).map String.data)) = ⟨ld⟩
    have hmk : ∀ L : List (List Char), (L.map String.mk).map String.data = L := by
      intro L
      induction L with
      | nil => rfl
      | cons x xs ih => simp only [List.map_cons, ih]
    rw [hmk, joinL_splitLF (a :: as) hd ld.length ld []]
    rfl

theorem splitLF_single_of_not_mem (c : Char) :
    ∀ (s : List Char) (fuel : Nat) (acc : List Char), c ∉ s →
      splitLF [c] fuel s acc = [acc.reverse ++ s] := by
  intro s
  induction s with
  | nil =>
    intro fuel acc _
    cases fuel with
    | zero => rfl
    | succ n => simp [splitLF]
  | cons d rest ih =>
    intro fuel acc hmem
    cases fuel with
    | zero => rfl
    | succ n =>
      have hne : (c == d) = false := by
        simp only [beq_eq_false_iff_ne, ne_eq]
        intro hh
        exact hmem (hh ▸ List.mem_cons_self d rest)
      simp only [splitLF, listStarts, hne, Bool.false_and, Bool.false_eq_true,
        if_false]
      rw [ih n (d :: acc) (fun hin => hmem (List.mem_cons_of_mem d hin))]
      simp

theorem splitLF_single_mid (c : Char) :
    ∀ (b h' : List Char) (fuel : Nat) (acc : List Char), c ∉ b → c ∉ h' →
      (b ++ c :: h').length ≤ fuel →
      splitLF [c] fuel (b ++ c :: h') acc = [acc.reverse ++ b, h'] := by
  intro b
  induction b with
  | nil =>
    intro h' fuel acc _ hh hlen
    cases fuel with
    | zero => simp at hlen
    | succ n =>
      simp only [List.nil_append, splitLF, listStarts, beq_self_eq_true,
        Bool.true_and, if_true]
      rw [show ([c].length - 1) = 0 from rfl, List.drop_zero]
      rw [splitLF_single_of_not_mem c h' n [] hh]
      simp
  | cons d b' ih =>
    intro h' fuel acc hb hh hlen
    cases fuel with
    | zero => simp at hlen
    | succ n =>
      have hne : (c == d) = false := by
        simp only [beq_eq_false_iff_ne, ne_eq]
        intro hhh
        exact hb (hhh ▸ List.mem_cons_self d b')
      simp only [List.cons_append, splitLF, listStarts, hne, Bool.false_and,
        Bool.false_eq_true, if_false, List.append_eq]
      rw [ih h' n (d :: acc) (fun hin => hb (List.mem_cons_of_mem d hin)) hh
        (by simpa using Nat.le_of_succ_le_succ (by simpa using hlen))]
      simp

theorem data_append (a b : String) : (a ++ b).data = a.data ++ b.data := by
  cases a; cases b; rfl

theorem colon_data : (":" : String).data = [':'] := by
  decide

theorem goSplit_colon_composite (b h' : String) (hb : ':' ∉ b.data)
    (hh : ':' ∉ h'.data) : goSplit ":" (b ++ ":" ++ h') = [b, h'] := by
  have hdata : (b ++ ":" ++ h').data = b.data ++ ':' :: h'.data := by
    rw [data_append, data_append, colon_data]
    simp
  show (splitLF [':'] (b ++ ":" ++ h').data.length (b ++ ":" ++ h').data []).map
      String.mk = [b, h']
  rw [hdata, splitLF_single_mid ':' b.data h'.data _ [] hb hh (Nat.le_refl _)]
  simp only [List.reverse_nil, List.nil_append, List.map_cons, List.map_nil]

theorem goContains_colon_composite (b h' : String) :
    goContains (b ++ ":" ++ h') ":" = true := by
  have hdata : (b ++ ":" ++ h').data = b.data ++ ':' :: h'.data := by
    rw [data_append, data_append, colon_data]
    simp
  unfold goContains
  rw [hdata, colon_data]
  exact hasSub_single_of_mem (by simp)

theorem toDigitsCore_ne_nil_of_ne_nil (b : Nat) :
    ∀ (fuel n : Nat) (ds : List Char), ds ≠ [] →
      Nat.toDigitsCore b fuel n ds ≠ [] := by
  intro fuel
  induction fuel with
  | zero => intro n ds h; simpa [Nat.toDigitsCore] using h
  | succ k ih =>
    intro n ds h
    simp only [Nat.toDigitsCore]
    split
    · simp
    · exact ih (n / b) _ (by simp)

/-! ## Supporting lemmas about matcher validation and CSV rows -/

theorem checkMatcherParts_ok_iff (m : String) (cols : List String) :
    ∀ ps : List String, (checkMatcherParts m cols ps = .ok () ↔
      ∀ p ∈ ps, cols.contains (extractColumnName p) = true) := by
  intro ps
  induction ps with
  | nil => simp [checkMatcherParts]
  | cons p rest ih =>
    simp only [checkMatcherParts]
    by_cases hc : cols.contains (extractColumnName p) = true
    · rw [if_pos hc]
      constructor
      · intro h p' hp'
        rcases List.mem_cons.mp hp' with rfl | hp'
        · exact hc
        · exact ih.mp h p' hp'
      · intro h
        exact ih.mpr (fun p' hp' => h p' (List.mem_cons_of_mem p hp'))
    · rw [if_neg hc]
      constructor
      · intro h
        cases h
      · intro h
        exact absurd (h p (List.mem_cons_self p rest)) hc

theorem checkMatcherParts_error_of_missing (m : String) (cols : List String) :
    ∀ (ps : List String) (c : String), firstMissingPart cols ps = some c →
      checkMatcherParts m cols ps = .error (matcherColumnError m c cols) := by
  intro ps
  induction ps with
  | nil => intro c h; simp [firstMissingPart] at h
  | cons p rest ih =>
    intro c h
    simp only [firstMissingPart] at h
    simp only [checkMatcherParts]
    by_cases hc : cols.contains (extractColumnName p) = true
    · rw [if_pos hc] at h ⊢
      exact ih c h
    · rw [if_neg hc] at h ⊢
      rw [Option.some.inj h]

theorem firstMissingPart_none_iff (cols : List String) :
    ∀ ps : List String, (firstMissingPart cols ps = none ↔
      ∀ p ∈ ps, cols.contains (extractColumnName p) = true) := by
  intro ps
  induction ps with
  | nil => simp [firstMissingPart]
  | cons p rest ih =>
    simp only [firstMissingPart]
    by_cases hc : cols.contains (extractColumnName p) = true
    · rw [if_pos hc]
      constructor
      · intro h p' hp'
        rcases List.mem_cons.mp hp' with rfl | hp'
        · exact hc
        · exact ih.mp h p' hp'
      · intro h
        exact ih.mpr (fun p' hp' => h p' (List.mem_cons_of_mem p hp'))
    · rw [if_neg hc]
      constructor
      · intro h
        cases h
      · intro h
        exact absurd (h p (List.mem_cons_self p rest)) hc

theorem checkMatchers_ok_iff (cols : List String) :
    ∀ ms : List String, (checkMatchers cols ms = .ok () ↔
      ∀ m ∈ ms, ∀ p ∈ goSplit " && " m,
        cols.contains (extractColumnName p) = true) := by
  intro ms
  induction ms with
  | nil => simp [checkMatchers]
  | cons m rest ih =>
    simp only [checkMatchers]
    constructor
    · intro h
      intro m' hm'
      rcases List.mem_cons.mp hm' with rfl | hm'
      · intro p hp
        revert h
        split
        · next hok =>
          intro _
          exact (checkMatcherParts_ok_iff m' cols _).mp hok p hp
        · next herr =>
          intro h
          cases h
      · intro p hp
        revert h
        split
        · next hok =>
          intro h
          exact (ih.mp h) m' hm' p hp
        · next herr =>
          intro h
          cases h
    · intro h
      have hok : checkMatcherParts m cols (goSplit " && " m) = .ok () :=
        (checkMatcherParts_ok_iff m cols _).mpr (h m (List.mem_cons_self m rest))
      rw [hok]
      exact ih.mpr (fun m' hm' => h m' (List.mem_cons_of_mem m hm'))

theorem checkMatchers_error_of_missing (cols : List String) :
    ∀ (ms : List String) (m c : String), firstMissing cols ms = some (m, c) →
      checkMatchers cols ms = .error (matcherColumnError m c cols) := by
  intro ms
  induction ms with
  | nil => intro m c h; simp [firstMissing] at h
  | cons m0 rest ih =>
    intro m c h
    simp only [firstMissing] at h
    simp only [checkMatchers]
    cases hfp : firstMissingPart cols (goSplit " && " m0) with
    | some c0 =>
      rw [hfp] at h
      have hpair := Option.some.inj h
      have hm : m0 = m := congrArg Prod.fst hpair
      have hc : c0 = c := congrArg Prod.snd hpair
      subst hm
      subst hc
      rw [checkMatcherParts_error_of_missing m0 cols _ c0 hfp]
    | none =>
      rw [hfp] at h
      have hok : checkMatcherParts m0 cols (goSplit " && " m0) = .ok () :=
        (checkMatcherParts_ok_iff m0 cols _).mpr
          ((firstMissingPart_none_iff cols _).mp hfp)
      rw [hok]
      exact ih m c h

theorem mem_rowKeys_mapInsert (row : List (String × String)) (k v x : String) :
    x ∈ rowKeys (mapInsert row k v) ↔ x ∈ rowKeys row ∨ x = k := by
  unfold mapInsert
  by_cases hany : row.any (fun p => p.1 == k) = true
  · rw [if_pos hany]
    have hkeys : rowKeys (row.map (fun p => if p.1 == k then (k, v) else p))
        = rowKeys row := by
      unfold rowKeys
      rw [List.map_map]
      apply List.map_congr_left
      intro p _
      by_cases hp : (p.1 == k) = true
      · simp only [Function.comp, hp, if_true]
        exact (beq_iff_eq.mp hp).symm
      · simp [Function.comp, hp]
    rw [hkeys]
    constructor
    · exact Or.inl
    · intro h
      rcases h with h | rfl
      · exact h
      · rcases List.any_eq_true.mp hany with ⟨p, hp, hpk⟩
        have : p.1 = x := beq_iff_eq.mp hpk
        exact this ▸ List.mem_map_of_mem (fun q => q.1) hp
  · rw [if_neg hany]
    unfold rowKeys
    simp

theorem mem_rowKeys_foldl (l : List (String × String)) :
    ∀ (row : List (String × String)) (x : String),
      x ∈ rowKeys (l.foldl (fun r kv => mapInsert r kv.1 kv.2) row) ↔
        x ∈ rowKeys row ∨ x ∈ l.map (fun p => p.1) := by
  induction l with
  | nil => intro row x; simp
  | cons kv rest ih =>
    intro row x
    simp only [List.foldl_cons, List.map_cons, List.mem_cons]
    rw [ih, mem_rowKeys_mapInsert]
    tauto

theorem mem_rowKeys_rowFromRecord (headers record : List String)
    (hlen : record.length = headers.length) (x : String) :
    x ∈ rowKeys (rowFromRecord headers record) ↔ x ∈ headers := by
  unfold rowFromRecord
  rw [mem_rowKeys_foldl]
  rw [List.map_fst_zip headers record (Nat.le_of_eq hlen.symm)]
  simp [rowKeys]

theorem toString_nat_ne_empty (n : Nat) : toString n ≠ "" := by
  show Nat.repr n ≠ ""
  unfold Nat.repr Nat.toDigits
  intro h
  have h2 : Nat.toDigitsCore 10 (n + 1) n [] = [] := by
    have := congrArg String.data h
    simpa [List.asString] using this
  revert h2
  simp only [Nat.toDigitsCore]
  split
  · simp
  · intro h2
    exact toDigitsCore_ne_nil_of_ne_nil 10 n (n / 10) _ (by simp) h2

/-! ## Supporting lemmas about the mapping handlers -/

theorem checkDuplicateName_error_of_dup (backend : List MappingRec)
    (name : String) (h : ∃ m ∈ backend, m.name = name) :
    checkDuplicateName backend name "" =
      .error ("mapping with name \x27" ++ name ++ "\x27 already exists") := by
  unfold checkDuplicateName
  rw [if_pos]
  rcases h with ⟨m, hm, hname⟩
  refine List.any_eq_true.mpr ⟨m, hm, ?_⟩
  simp [hname, bne_iff_ne, toString_nat_ne_empty m.id]

theorem checkDuplicateName_ok_of_no_dup (backend : List MappingRec)
    (name cur : String) (h : ∀ m ∈ backend, m.name ≠ name) :
    checkDuplicateName backend name cur = .ok () := by
  have hfalse : backend.any (fun m => m.name == name && toString m.id != cur) = false := by
    rw [List.any_eq_false]
    intro m hm
    simp [h m hm]
  simp [checkDuplicateName, hfalse]

theorem cleanupDuplicateMappings_of_no_dup (backend : List MappingRec)
    (created : MappingRec) (name : String) (hname : created.name = name)
    (h : ∀ m ∈ backend, m.name ≠ name) :
    cleanupDuplicateMappings (backend ++ [created]) (toString created.id) name
      = backend ++ [created] := by
  unfold cleanupDuplicateMappings
  rw [List.filter_eq_self]
  intro m hm
  rcases List.mem_append.mp hm with hm | hm
  · simp [h m hm]
  · have : m = created := List.mem_singleton.mp hm
    subst this
    simp [hname]

theorem resourceCreateMapping_dup_error (backend : List MappingRec)
    (freshId : Nat) (cfg : MappingConfig) (path : String) (file : Option CsvFile)
    (h : ∃ m ∈ backend, m.name = cfg.name) :
    resourceCreateMapping backend freshId cfg path file =
      .error ("mapping with name \x27" ++ cfg.name ++ "\x27 already exists") := by
  unfold resourceCreateMapping
  rw [checkDuplicateName_error_of_dup backend cfg.name h]

theorem resourceCreateMapping_ok_of_no_dup (backend : List MappingRec)
    (freshId : Nat) (cfg : MappingConfig) (path : String) (f : CsvFile)
    (hno : ∀ m ∈ backend, m.name ≠ cfg.name)
    (hval : validateMatchersAgainstCSV cfg.matchers
      (rowsFromCSV f.headers f.records) = .ok ()) :
    resourceCreateMapping backend freshId cfg path (some f) =
      .ok (backend ++ [⟨freshId, cfg.name, cfg.description, cfg.priority,
             f.fileName, formatMatchers cfg.matchers⟩],
           toString freshId ++ ":" ++ sha256hex f.content) := by
  unfold resourceCreateMapping
  simp only [checkDuplicateName_ok_of_no_dup backend cfg.name "" hno, hval]
  rw [cleanupDuplicateMappings_of_no_dup backend _ cfg.name rfl hno]

theorem resourceCreateMapping_ok_inv (backend : List MappingRec)
    (freshId : Nat) (cfg : MappingConfig) (path : String) (file : Option CsvFile)
    (st : List MappingRec) (cid : String)
    (h : resourceCreateMapping backend freshId cfg path file = .ok (st, cid)) :
    ∃ f, file = some f ∧ cid = toString freshId ++ ":" ++ sha256hex f.content := by
  unfold resourceCreateMapping at h
  split at h
  · cases h
  · split at h
    · cases h
    · next f =>
      split at h
      · cases h
      · refine ⟨f, rfl, ?_⟩
        obtain ⟨h1, h2⟩ := Prod.mk.inj (Except.ok.inj h)
        exact h2.symm

theorem resourceUpdateMapping_ok_inv (backend : List MappingRec)
    (freshId : Nat) (id : String) (nameChanged hashChanged : Bool)
    (cfg : MappingConfig) (path : String) (file : Option CsvFile)
    (st : List MappingRec) (cid : String)
    (h : resourceUpdateMapping backend freshId id nameChanged hashChanged cfg
          path file = .ok (st, cid)) :
    ∃ f, file = some f ∧ cid = toString freshId ++ ":" ++ sha256hex f.content := by
  unfold resourceUpdateMapping at h
  split at h
  · cases h
  · split at h
    · cases h
    · split at h
      · cases h
      · split at h
        · cases h
        · next f =>
          split at h
          · cases h
          · refine ⟨f, rfl, ?_⟩
            obtain ⟨h1, h2⟩ := Prod.mk.inj (Except.ok.inj h)
            exact h2.symm

theorem resourceUpdateMapping_ok_names (backend : List MappingRec)
    (freshId : Nat) (id : String) (nameChanged hashChanged : Bool)
    (cfg : MappingConfig) (path : String) (file : Option CsvFile)
    (st : List MappingRec) (cid : String)
    (h : resourceUpdateMapping backend freshId id nameChanged hashChanged cfg
          path file = .ok (st, cid)) :
    ∀ m ∈ st, m.name = cfg.name → toString m.id = toString freshId := by
  unfold resourceUpdateMapping at h
  split at h
  · cases h
  · split at h
    · cases h
    · split at h
      · cases h
      · split at h
        · cases h
        · split at h
          · cases h
          · obtain ⟨hst, hcid⟩ := Prod.mk.inj (Except.ok.inj h)
            intro m hm hname
            rw [← hst] at hm
            unfold cleanupDuplicateMappings at hm
            have := List.of_mem_filter hm
            simp only [hname, beq_self_eq_true, Bool.true_and, Bool.not_eq_eq_eq_not,
              Bool.not_true, bne_eq_false_iff_eq] at this
            exact this

theorem resourceCreateMapping_ok_names (backend : List MappingRec)
    (freshId : Nat) (cfg : MappingConfig) (path : String) (file : Option CsvFile)
    (st : List MappingRec) (cid : String)
    (h : resourceCreateMapping backend freshId cfg path file = .ok (st, cid)) :
    ∀ m ∈ st, m.name = cfg.name → toString m.id = toString freshId := by
  unfold resourceCreateMapping at h
  split at h
  · cases h
  · split at h
    · cases h
    · split at h
      · cases h
      · obtain ⟨hst, hcid⟩ := Prod.mk.inj (Except.ok.inj h)
        intro m hm hname
        rw [← hst] at hm
        unfold cleanupDuplicateMappings at hm
        have := List.of_mem_filter hm
        simp only [hname, beq_self_eq_true, Bool.true_and, Bool.not_eq_eq_eq_not,
          Bool.not_true, bne_eq_false_iff_eq] at this
        exact this

/-! ## Supporting lemmas about `doReq` and the composite id -/

theorem isScopesError_true_of_scopes (body : Option JVal)
    (h : scopesOf body ≠ []) :
    isScopesError body =
      (true, "Missing required scopes: " ++ fmtStrSlice (scopesOf body)) := by
  cases body with
  | none => simp [scopesOf] at h
  | some v =>
    cases hd : decodeDetail v with
    | none => simp [scopesOf, hd] at h
    | some detail =>
      have hscope : scopesOf (some v) =
          (detail.filter (fun p => p.2 == "Missing scope")).map (fun p => p.1) := by
        simp [scopesOf, hd]
      rw [hscope] at h ⊢
      simp only [isScopesError, hd]
      have hdet : 0 < detail.length := by
        cases detail with
        | nil => simp at h
        | cons _ _ => simp
      rw [if_pos hdet, if_pos (List.length_pos.mpr h)]

theorem isScopesError_pair_of_no_scopes (body : Option JVal)
    (h : scopesOf body = []) : isScopesError body = (false, "") := by
  cases body with
  | none => rfl
  | some v =>
    cases hd : decodeDetail v with
    | none => simp [isScopesError, hd]
    | some detail =>
      have hscope : scopesOf (some v) =
          (detail.filter (fun p => p.2 == "Missing scope")).map (fun p => p.1) := by
        simp [scopesOf, hd]
      rw [hscope] at h
      simp only [isScopesError, hd]
      by_cases hdet : 0 < detail.length
      · rw [if_pos hdet, h]
        simp
      · rw [if_neg hdet]

theorem doReq_cond_false (status : Nat) (h200 : status ≠ 200)
    (h201 : status ≠ 201) : (status == 200 || status == 201) = false := by
  simp [h200, h201]

theorem doReq_scope_error (status : Nat) (raw : String) (body : Option JVal)
    (h200 : status ≠ 200) (h201 : status ≠ 201) (hs : scopesOf body ≠ []) :
    doReq status raw body = .error (some ⟨"Insufficient permissions",
      "Missing required scopes: " ++ fmtStrSlice (scopesOf body)⟩,
      "API request failed: insufficient permissions") := by
  unfold doReq
  rw [doReq_cond_false status h200 h201, isScopesError_true_of_scopes body hs]
  rfl

theorem doReq_structured_error (status : Nat) (raw : String) (body : Option JVal)
    (er : ErrorResponse) (h200 : status ≠ 200) (h201 : status ≠ 201)
    (hs : scopesOf body = []) (hd : body.bind decodeErrorResponse = some er)
    (hne : er.error ≠ "" ∨ er.details ≠ "") :
    doReq status raw body =
      .error (some er, "API request failed with status " ++ toString status) := by
  have hb : (er.error != "" || er.details != "") = true := by
    rcases hne with h | h <;> simp [h]
  unfold doReq
  rw [doReq_cond_false status h200 h201, isScopesError_pair_of_no_scopes body hs, hd]
  simp [hb]

theorem doReq_generic_error_of_empty (status : Nat) (raw : String)
    (body : Option JVal) (h200 : status ≠ 200) (h201 : status ≠ 201)
    (hs : scopesOf body = [])
    (hd : body.bind decodeErrorResponse = some ⟨"", ""⟩) :
    doReq status raw body = .error (genericFailure status raw) := by
  unfold doReq
  rw [doReq_cond_false status h200 h201, isScopesError_pair_of_no_scopes body hs, hd]
  rfl

theorem doReq_generic_error_of_none (status : Nat) (raw : String)
    (body : Option JVal) (h200 : status ≠ 200) (h201 : status ≠ 201)
    (hs : scopesOf body = [])
    (hd : body.bind decodeErrorResponse = none) :
    doReq status raw body = .error (genericFailure status raw) := by
  unfold doReq
  rw [doReq_cond_false status h200 h201, isScopesError_pair_of_no_scopes body hs, hd]
  rfl

theorem doReq_not_success_cases (status : Nat) (raw : String) (body : Option JVal)
    (h200 : status ≠ 200) (h201 : status ≠ 201) :
    (scopesOf body ≠ [] ∧ doReq status raw body =
        .error (some ⟨"Insufficient permissions",
          "Missing required scopes: " ++ fmtStrSlice (scopesOf body)⟩,
          "API request failed: insufficient permissions"))
    ∨ (scopesOf body = [] ∧ ∃ er, body.bind decodeErrorResponse = some er ∧
        (er.error ≠ "" ∨ er.details ≠ "") ∧ doReq status raw body =
          .error (some er, "API request failed with status " ++ toString status))
    ∨ (scopesOf body = [] ∧ doReq status raw body =
        .error (genericFailure status raw)) := by
  by_cases hs : scopesOf body = []
  · cases hd : body.bind decodeErrorResponse with
    | none =>
      exact Or.inr (Or.inr ⟨hs, doReq_generic_error_of_none status raw body
        h200 h201 hs hd⟩)
    | some er =>
      by_cases hne : er.error = "" ∧ er.details = ""
      · have her : er = ⟨"", ""⟩ := by
          cases er
          simp only at hne
          rw [hne.1, hne.2]
        refine Or.inr (Or.inr ⟨hs, ?_⟩)
        exact doReq_generic_error_of_empty status raw body h200 h201 hs
          (by rw [← her]; exact hd)
      · have hne' : er.error ≠ "" ∨ er.details ≠ "" := by tauto
        exact Or.inr (Or.inl ⟨hs, er, rfl,
          hne', doReq_structured_error status raw body er h200 h201 hs hd hne'⟩)
  · exact Or.inl ⟨hs, doReq_scope_error status raw body h200 h201 hs⟩

theorem doReq_is_error (status : Nat) (raw : String) (body : Option JVal)
    (h200 : status ≠ 200) (h201 : status ≠ 201) :
    ∃ er msg, doReq status raw body = .error (some er, msg) := by
  rcases doReq_not_success_cases status raw body h200 h201 with
    ⟨_, h⟩ | ⟨_, er, _, _, h⟩ | ⟨_, h⟩
  · exact ⟨_, _, h⟩
  · exact ⟨_, _, h⟩
  · exact ⟨_, _, h⟩

theorem extractMappingID_plain (id : String) (h : goContains id ":" = false) :
    extractMappingID id = .ok id := by
  unfold extractMappingID
  rw [h]
  simp

theorem extractMappingID_composite (b h' : String) (hb : ':' ∉ b.data)
    (hh : ':' ∉ h'.data) : extractMappingID (b ++ ":" ++ h') = .ok b := by
  unfold extractMappingID
  rw [goContains_colon_composite b h']
  simp only [if_true]
  rw [goSplit_colon_composite b h' hb hh]
  simp

theorem extractMappingID_invalid (id : String) (hc : goContains id ":" = true)
    (hl : (goSplit ":" id).length ≠ 2) :
    extractMappingID id = .error "invalid resource ID format" := by
  unfold extractMappingID
  rw [hc]
  have hb : ((goSplit ":" id).length != 2) = true := by
    simpa using hl
  simp [hb]

/-! ## Claim theorems -/

/-- C1: during plan-time diff customization of a file-backed resource, the
hash field is marked force-new and staged with the freshly computed SHA-256
digest exactly when that digest differs from the value stored in state; an
unchanged file stages nothing, and a file whose digest diverges from the
stored one forces replacement. -/
theorem claim1_hash_replacement (path : String) (hpath : path ≠ "")
    (content : List Nat) (oldHash : String) :
    (customizeDiff path (some content) oldHash = .ok (some (sha256hex content))
        ↔ sha256hex content ≠ oldHash)
    ∧ customizeDiff path (some content) (sha256hex content) = .ok none
    ∧ (∀ newContent : List Nat, sha256hex newContent ≠ sha256hex content →
        customizeDiff path (some newContent) (sha256hex content) =
          .ok (some (sha256hex newContent))) := by
  have hpath' : (path == "") = false := by
    simpa using hpath
  have base : ∀ (old : String) (c' : List Nat),
      customizeDiff path (some c') old =
        if old ≠ sha256hex c' then .ok (some (sha256hex c')) else .ok none := by
    intro old c'
    unfold customizeDiff calculateFileHash
    rw [hpath']
    simp [bne_iff_ne]
  refine ⟨?_, ?_, ?_⟩
  · rw [base]
    by_cases h : oldHash = sha256hex content
    · subst h
      simp
    · simp [h, Ne.symm h]
  · rw [base]
    simp
  · intro newContent hne
    rw [base]
    simp [Ne.symm hne]

/-- C1 witness: a concrete non-empty path with an arbitrary stored hash. -/
theorem claim1_witness :
    ("f" : String) ≠ "" ∧
    ((customizeDiff "f" (some [104, 105]) "" = .ok (some (sha256hex [104, 105]))
        ↔ sha256hex [104, 105] ≠ "")
      ∧ customizeDiff "f" (some [104, 105]) (sha256hex [104, 105]) = .ok none
      ∧ (∀ newContent : List Nat,
          sha256hex newContent ≠ sha256hex [104, 105] →
          customizeDiff "f" (some newContent) (sha256hex [104, 105]) =
            .ok (some (sha256hex newContent)))) :=
  ⟨by decide, claim1_hash_replacement "f" (by decide) [104, 105] ""⟩

/-- C2 counterexample: an empty matcher list references no columns at all,
so by the claim validation should succeed for any CSV; yet against the rows
parsed from a CSV holding only its header line (zero data records) the
validation fails with `CSV file is empty`.  The claimed equivalence is
therefore false as stated. -/
theorem claim2_counterexample :
    (∀ m ∈ ["severity=x"], ∀ p ∈ goSplit " && " m,
        List.contains ["severity"] (extractColumnName p) = true)
    ∧ validateMatchersAgainstCSV ["severity=x"] (rowsFromCSV ["severity"] [])
        = .error "CSV file is empty" := by
  constructor
  · decide
  · rfl

/-- C2 (amended): when at least one data record is present, validation of
matchers against the rows parsed from a CSV succeeds iff every column
referenced by a matcher part is a header column; an empty record list always
fails with `CSV file is empty`; and the first missing column produces an
error naming the matcher, the column, and the (sorted) available columns. -/
theorem claim2_validate_columns (matchers headers : List String)
    (records : List (List String))
    (hlen : ∀ r ∈ records, r.length = headers.length) :
    (validateMatchersAgainstCSV matchers (rowsFromCSV headers records) = .ok ()
      ↔ records ≠ [] ∧ ∀ m ∈ matchers, ∀ p ∈ goSplit " && " m,
          extractColumnName p ∈ headers)
    ∧ (∀ (row0 : List (String × String)) (rows : List (List (String × String)))
        (m c : String), firstMissing (rowKeys row0) matchers = some (m, c) →
        validateMatchersAgainstCSV matchers (row0 :: rows)
          = .error (matcherColumnError m c (rowKeys row0))) := by
  constructor
  · cases records with
    | nil =>
      simp [rowsFromCSV, validateMatchersAgainstCSV]
    | cons r rs =>
      simp only [rowsFromCSV, List.map_cons, validateMatchersAgainstCSV]
      rw [checkMatchers_ok_iff]
      constructor
      · intro h
        refine ⟨by simp, ?_⟩
        intro m hm p hp
        have := h m hm p hp
        have hmem := List.elem_iff.mp this
        exact (mem_rowKeys_rowFromRecord headers r
          (hlen r (List.mem_cons_self r rs)) _).mp hmem
      · intro ⟨_, h⟩
        intro m hm p hp
        refine List.elem_iff.mpr ?_
        exact (mem_rowKeys_rowFromRecord headers r
          (hlen r (List.mem_cons_self r rs)) _).mpr (h m hm p hp)
  · intro row0 rows m c h
    simp only [validateMatchersAgainstCSV]
    exact checkMatchers_error_of_missing _ _ m c h

/-- C2 witness: one matcher over one header column with one data record. -/
theorem claim2_witness :
    (∀ r ∈ [["critical"]], r.length = (["severity"] : List String).length) ∧
    ((validateMatchersAgainstCSV ["severity=x"]
        (rowsFromCSV ["severity"] [["critical"]]) = .ok ()
      ↔ [["critical"]] ≠ ([] : List (List String)) ∧
          ∀ m ∈ ["severity=x"], ∀ p ∈ goSplit " && " m,
            extractColumnName p ∈ ["severity"])
    ∧ (∀ (row0 : List (String × String)) (rows : List (List (String × String)))
        (m c : String),
        firstMissing (rowKeys row0) ["severity=x"] = some (m, c) →
        validateMatchersAgainstCSV ["severity=x"] (row0 :: rows)
          = .error (matcherColumnError m c (rowKeys row0)))) :=
  ⟨by decide, claim2_validate_columns ["severity=x"] ["severity"] [["critical"]] (by decide)⟩

/-- C5 counterexample: a mapping delete answered with status 405 is reported
as an error, not treated as already-deleted success, refuting the claim for
the mapping resource kind. -/
theorem claim5_counterexample :
    resourceDeleteMapping "7" 405 "" (some (.obj []))
      = .error "API Error: request failed with status 405. Details: " := by
  rfl

/-- C5 (amended): only the extraction resource treats an already-removed
resource as success — via its existence pre-scan (no delete call when the id
is absent from the list) and by treating a delete error mentioning 405 as
already-deleted; the mapping and workflow deletes surface every non-success
delete response (404 and 405 included) as an error. -/
theorem claim5_delete_already_removed :
    (∀ (id : String) (status : Nat) (raw : String) (body : Option JVal),
      goContains id ":" = false → status ≠ 200 → status ≠ 201 →
      ∃ e, resourceDeleteMapping id status raw body = .error e)
    ∧ (∀ (status : Nat) (raw : String) (body : Option JVal),
        status ≠ 200 → status ≠ 201 →
        ∃ e, resourceDeleteWorkflow status raw body = .error e)
    ∧ (∀ (backend : List ExtractionRec) (id : String) (status : Nat)
        (raw : String) (body : Option JVal),
        (∀ x ∈ backend, toString x.id ≠ id) →
        resourceDeleteExtraction backend id status raw body = .ok ())
    ∧ (∀ (backend : List ExtractionRec) (id : String) (raw : String)
        (body : Option JVal), (isScopesError body).1 = false →
        resourceDeleteExtraction backend id 405 raw body = .ok ()) := by
  refine ⟨?_, ?_, ?_, ?_⟩
  · intro id status raw body hplain h200 h201
    obtain ⟨er, msg, hdo⟩ := doReq_is_error status raw body h200 h201
    refine ⟨"API Error: " ++ er.error ++ ". Details: " ++ er.details, ?_⟩
    unfold resourceDeleteMapping
    rw [extractMappingID_plain id hplain, hdo]
  · intro status raw body h200 h201
    obtain ⟨er, msg, hdo⟩ := doReq_is_error status raw body h200 h201
    refine ⟨"API Error: " ++ er.error ++ ". Details: " ++ er.details, ?_⟩
    unfold resourceDeleteWorkflow
    rw [hdo]
  · intro backend id status raw body habs
    unfold resourceDeleteExtraction
    have hany : backend.any (fun e => toString e.id == id) = false := by
      rw [List.any_eq_false]
      intro e he
      simpa using habs e he
    rw [hany]
    rfl
  · intro backend id raw body hscope
    unfold resourceDeleteExtraction
    by_cases hany : backend.any (fun e => toString e.id == id) = true
    · rw [hany]
      have h200 : (405 : Nat) ≠ 200 := by decide
      have h201 : (405 : Nat) ≠ 201 := by decide
      rcases doReq_not_success_cases 405 raw body h200 h201 with
        ⟨hsne, _⟩ | ⟨_, er, hbind, hne, hdo⟩ | ⟨_, hdo⟩
      · exfalso
        rw [isScopesError_true_of_scopes body hsne] at hscope
        simp at hscope
      · rw [hdo]
        have hcont : goContains
            ("API request failed with status " ++ toString (405 : Nat)) "405"
              = true := by decide
        simp [hcont]
      · rw [hdo]
        have hcont : goContains
            ("API request failed with status " ++ toString (405 : Nat) ++ ": " ++ raw)
            "405" = true := by
          apply goContains_append_left
          apply goContains_append_left
          decide
        simp [genericFailure, hcont]
    · have hf : backend.any (fun e => toString e.id == id) = false := by
        revert hany
        cases backend.any (fun e => toString e.id == id) <;> simp
      rw [hf]
      rfl

/-- C5 witness: a mapping delete and a workflow delete answered 404 error
out; an extraction absent from the list and an extraction delete answered
405 both succeed. -/
theorem claim5_witness :
    (∃ e, resourceDeleteMapping "7" 404 "" (some (.obj [])) = .error e)
    ∧ (∃ e, resourceDeleteWorkflow 404 "" (some (.obj [])) = .error e)
    ∧ resourceDeleteExtraction [sampleExtraction] "9" 404 "" (some (.obj [])) = .ok ()
    ∧ resourceDeleteExtraction [sampleExtraction] "1" 405 "" (some (.obj [])) = .ok () :=
  ⟨claim5_delete_already_removed.1 "7" 404 "" (some (.obj []))
      (by decide) (by decide) (by decide),
   claim5_delete_already_removed.2.1 404 "" (some (.obj []))
      (by decide) (by decide),
   claim5_delete_already_removed.2.2.1 [sampleExtraction] "9" 404 ""
      (some (.obj [])) (by decide),
   claim5_delete_already_removed.2.2.2 [sampleExtraction] "1" ""
      (some (.obj [])) (by decide)⟩

/-- C6: a non-success response (status other than 200/201, e.g. 412) whose
JSON body holds a detail map with some entry valued `Missing scope` is
reported as an `Insufficient permissions` error listing the missing scopes,
not as a generic status-code failure. -/
theorem claim6_missing_scope_error (status : Nat) (raw : String)
    (body : Option JVal) (h200 : status ≠ 200) (h201 : status ≠ 201)
    (hs : scopesOf body ≠ []) :
    doReq status raw body = .error (some ⟨"Insufficient permissions",
      "Missing required scopes: " ++ fmtStrSlice (scopesOf body)⟩,
      "API request failed: insufficient permissions") :=
  doReq_scope_error status raw body h200 h201 hs

/-- C6 witness: a 412 response with one missing scope. -/
theorem claim6_witness :
    (412 : Nat) ≠ 200 ∧ (412 : Nat) ≠ 201 ∧
    scopesOf (some sampleScopeBody) ≠ [] ∧
    doReq 412 "x" (some sampleScopeBody) =
      .error (some ⟨"Insufficient permissions",
        "Missing required scopes: " ++ fmtStrSlice (scopesOf (some sampleScopeBody))⟩,
        "API request failed: insufficient permissions") :=
  ⟨by decide, by decide, by decide,
   claim6_missing_scope_error 412 "x" (some sampleScopeBody)
     (by decide) (by decide) (by decide)⟩

/-- C7 counterexample: status 202 is 2xx, yet the request helper reports a
generic error instead of returning the body; and a 412 body holding only a
missing-scope detail map decodes to an empty error/details pair, yet is
reported as the synthesized `Insufficient permissions` error rather than the
generic raw-body error the claim prescribes. -/
theorem claim7_counterexample :
    doReq 202 "\x7b\x7d" (some (.obj [])) =
      .error (some ⟨"request failed with status 202", "\x7b\x7d"⟩,
              "API request failed with status 202: \x7b\x7d")
    ∧ (some sampleScopeBody).bind decodeErrorResponse = some ⟨"", ""⟩
    ∧ doReq 412 "\x7b\x7d" (some sampleScopeBody) =
      .error (some ⟨"Insufficient permissions",
        "Missing required scopes: [alert.rules:read]"⟩,
        "API request failed: insufficient permissions") :=
  ⟨rfl, rfl, rfl⟩

/-- C7 (amended): the request helper succeeds with the body exactly on
status 200 or 201; on any other status it reports, in order of precedence:
the synthesized `Insufficient permissions` error when the body carries
missing-scope details, else the parsed structured body when it decodes to a
non-empty error/details pair, else the generic status-code error carrying
the raw body. -/
theorem claim7_doreq_result (status : Nat) (raw : String) (body : Option JVal) :
    ((status = 200 ∨ status = 201) → doReq status raw body = .ok body)
    ∧ (status ≠ 200 → status ≠ 201 →
        (scopesOf body ≠ [] →
          doReq status raw body = .error (some ⟨"Insufficient permissions",
            "Missing required scopes: " ++ fmtStrSlice (scopesOf body)⟩,
            "API request failed: insufficient permissions"))
        ∧ (∀ er : ErrorResponse, scopesOf body = [] →
            body.bind decodeErrorResponse = some er →
            (er.error ≠ "" ∨ er.details ≠ "") →
            doReq status raw body = .error (some er,
              "API request failed with status " ++ toString status))
        ∧ (scopesOf body = [] →
            body.bind decodeErrorResponse = some ⟨"", ""⟩ →
            doReq status raw body = .error (genericFailure status raw))
        ∧ (scopesOf body = [] → body.bind decodeErrorResponse = none →
            doReq status raw body = .error (genericFailure status raw))) := by
  constructor
  · intro h
    have hcond : (status == 200 || status == 201) = true := by
      rcases h with h | h <;> simp [h]
    unfold doReq
    rw [hcond]
    rfl
  · intro h200 h201
    exact ⟨fun hs => doReq_scope_error status raw body h200 h201 hs,
           fun er hs hd hne =>
             doReq_structured_error status raw body er h200 h201 hs hd hne,
           fun hs hd =>
             doReq_generic_error_of_empty status raw body h200 h201 hs hd,
           fun hs hd =>
             doReq_generic_error_of_none status raw body h200 h201 hs hd⟩

/-- C7 witness: a success status returns the body; a 500 with an unparsable
body yields the generic raw-body error. -/
theorem claim7_witness :
    doReq 200 "r" none = .ok none ∧
    doReq 500 "r" none = .error (genericFailure 500 "r") :=
  ⟨(claim7_doreq_result 200 "r" none).1 (Or.inl rfl),
   ((claim7_doreq_result 500 "r" none).2 (by decide) (by decide)).2.2.2
     rfl rfl⟩

/-- C8 counterexample: a workflow Read whose by-id fetch is answered 404
with a structured JSON error body reports an error instead of clearing the
local id, refuting the claim for the workflow resource kind. -/
theorem claim8_counterexample :
    resourceReadWorkflow 404 "" (some (.obj [("error", .str "workflow not found")]))
      = .error "API Error: workflow not found. Details: " := by
  rfl

/-- C8 (amended): the mapping and extraction Reads clear the local id
silently when no listed resource matches; the workflow Read clears silently
only when the fetch succeeds without a usable id in the response or fails
without a structured error response — a fetch failing with a structured
error (e.g. a 404 with a JSON body) is surfaced as an error. -/
theorem claim8_read_not_found :
    (∀ (backend : List MappingRec) (id : String),
      goContains id ":" = false →
      (∀ m ∈ backend, (m.id : Int) ≠ castToInt id) →
      resourceReadMapping backend id = .ok .cleared)
    ∧ (∀ (backend : List ExtractionRec) (id : String),
        (∀ e ∈ backend, toString e.id ≠ id) →
        resourceReadExtraction backend id = .cleared)
    ∧ (∀ (raw : String) (fs : List (String × JVal)),
        getField fs "id" = none →
        resourceReadWorkflow 200 raw (some (.obj fs)) = .ok .cleared)
    ∧ (∀ raw : String, resourceReadWorkflow 200 raw none = .ok .cleared)
    ∧ (∀ (status : Nat) (raw : String) (body : Option JVal),
        status ≠ 200 → status ≠ 201 →
        ∃ e, resourceReadWorkflow status raw body = .error e) := by
  refine ⟨?_, ?_, ?_, ?_, ?_⟩
  · intro backend id hplain habs
    unfold resourceReadMapping
    rw [extractMappingID_plain id hplain]
    have hfind : backend.find? (fun m => (m.id : Int) == castToInt id) = none := by
      rw [List.find?_eq_none]
      intro m hm
      simpa using habs m hm
    simp [hfind]
  · intro backend id habs
    unfold resourceReadExtraction
    have hfind : backend.find? (fun e => toString e.id == id) = none := by
      rw [List.find?_eq_none]
      intro e he
      simpa using habs e he
    rw [hfind]
  · intro raw fs hid
    unfold resourceReadWorkflow getWorkflow doReq
    simp [hid]
  · intro raw
    rfl
  · intro status raw body h200 h201
    obtain ⟨er, msg, hdo⟩ := doReq_is_error status raw body h200 h201
    refine ⟨"API Error: " ++ er.error ++ ". Details: " ++ er.details, ?_⟩
    unfold resourceReadWorkflow getWorkflow
    rw [hdo]

/-- C8 witness: a mapping and an extraction whose lists hold no matching id
clear silently; a workflow response without an id clears silently. -/
theorem claim8_witness :
    resourceReadMapping [sampleMapping] "7" = .ok .cleared
    ∧ resourceReadExtraction [sampleExtraction] "7" = .cleared
    ∧ resourceReadWorkflow 200 "" (some (.obj [])) = .ok .cleared :=
  ⟨claim8_read_not_found.1 [sampleMapping] "7" (by decide) (by decide),
   claim8_read_not_found.2.1 [sampleExtraction] "7" (by decide),
   claim8_read_not_found.2.2.1 "" [] rfl⟩

/-- C10: a successful mapping Create or Update always writes the composite
id `<backend id>:<csv content hash>`; the shared id parsing of Read, Update
and Delete accepts a composite id (taking the text before the `:` as the
backend id) as well as a plain id, and each of the three handlers rejects an
id containing `:` that does not split into exactly two parts with
`invalid resource ID format`. -/
theorem claim10_composite_id :
    (∀ (backend : List MappingRec) (freshId : Nat) (cfg : MappingConfig)
        (path : String) (file : Option CsvFile) (st : List MappingRec)
        (cid : String),
        resourceCreateMapping backend freshId cfg path file = .ok (st, cid) →
        ∃ f, file = some f ∧ cid = toString freshId ++ ":" ++ sha256hex f.content)
    ∧ (∀ (backend : List MappingRec) (freshId : Nat) (id : String)
        (nameChanged hashChanged : Bool) (cfg : MappingConfig) (path : String)
        (file : Option CsvFile) (st : List MappingRec) (cid : String),
        resourceUpdateMapping backend freshId id nameChanged hashChanged cfg
          path file = .ok (st, cid) →
        ∃ f, file = some f ∧ cid = toString freshId ++ ":" ++ sha256hex f.content)
    ∧ (∀ b h' : String, ':' ∉ b.data → ':' ∉ h'.data →
        extractMappingID (b ++ ":" ++ h') = .ok b)
    ∧ (∀ id : String, goContains id ":" = false → extractMappingID id = .ok id)
    ∧ (∀ id : String, goContains id ":" = true → (goSplit ":" id).length ≠ 2 →
        (∀ backend : List MappingRec,
          resourceReadMapping backend id = .error "invalid resource ID format")
        ∧ (∀ (status : Nat) (raw : String) (body : Option JVal),
            resourceDeleteMapping id status raw body =
              .error "invalid resource ID format")
        ∧ (∀ (backend : List MappingRec) (freshId : Nat) (hashChanged : Bool)
            (cfg : MappingConfig) (path : String) (file : Option CsvFile),
            resourceUpdateMapping backend freshId id false hashChanged cfg
              path file = .error "invalid resource ID format")) := by
  refine ⟨?_, ?_, ?_, ?_, ?_⟩
  · intro backend freshId cfg path file st cid h
    exact resourceCreateMapping_ok_inv backend freshId cfg path file st cid h
  · intro backend freshId id nc hc cfg path file st cid h
    exact resourceUpdateMapping_ok_inv backend freshId id nc hc cfg path file st cid h
  · intro b h' hb hh
    exact extractMappingID_composite b h' hb hh
  · intro id h
    exact extractMappingID_plain id h
  · intro id hc hl
    refine ⟨?_, ?_, ?_⟩
    · intro backend
      unfold resourceReadMapping
      rw [extractMappingID_invalid id hc hl]
    · intro status raw body
      unfold resourceDeleteMapping
      rw [extractMappingID_invalid id hc hl]
    · intro backend freshId hashChanged cfg path file
      simp [resourceUpdateMapping, extractMappingID_invalid id hc hl]

/-- C10 witness: a concrete successful create carries the composite id; the
parser accepts `5:abc` as backend id `5` and plain `5` as itself; `1:2:3` is
rejected by Read. -/
theorem claim10_witness :
    (∃ f, some sampleCsv = some f ∧
      toString 1 ++ ":" ++ sha256hex sampleCsv.content =
        toString 1 ++ ":" ++ sha256hex f.content)
    ∧ extractMappingID ("5" ++ ":" ++ "abc") = .ok "5"
    ∧ extractMappingID "5" = .ok "5"
    ∧ resourceReadMapping [] "1:2:3" = .error "invalid resource ID format" :=
  ⟨claim10_composite_id.1 [] 1 sampleCfg "p" (some sampleCsv)
      [⟨1, sampleCfg.name, sampleCfg.description, sampleCfg.priority,
        sampleCsv.fileName, formatMatchers sampleCfg.matchers⟩]
      (toString 1 ++ ":" ++ sha256hex sampleCsv.content) (by rfl),
   claim10_composite_id.2.2.1 "5" "abc" (by decide) (by decide),
   claim10_composite_id.2.2.2.1 "5" (by decide),
   (claim10_composite_id.2.2.2.2 "1:2:3" (by decide) (by decide)).1 []⟩

theorem matchers_roundtrip_aux : ∀ ms : List String,
    formatMatchersStringForState
      (GoVal.list (ms.map (fun m =>
        GoVal.list ((goSplit " && " m).map GoVal.str)))) = ms := by
  intro ms
  induction ms with
  | nil => rfl
  | cons m rest ih =>
    simp only [List.map_cons, formatMatchersStringForState] at ih ⊢
    rw [ih]
    congr 1
    show goJoin " && " (((goSplit " && " m).map GoVal.str).map (fun p =>
      match p with
      | GoVal.str s => s
      | _ => "")) = m
    rw [List.map_map]
    have hcomp : ((fun p => match p with
        | GoVal.str s => s
        | _ => "") ∘ GoVal.str) = fun s : String => s := rfl
    rw [hcomp, List.map_id']
    exact goJoin_goSplit " && " m (by decide)

/-- C3 counterexample: with a remote mapping named `x` already present (under
backend id 1), creating a second mapping named `x` does not succeed: the
client-side duplicate-name pre-check rejects it before any create call, and
the earlier mapping is not deleted. -/
theorem claim3_counterexample :
    resourceCreateMapping [sampleMapping] 2 sampleCfg "m.csv" (some sampleCsv)
      = .error "mapping with name \x27x\x27 already exists" := by
  rfl

/-- C3 (amended): creating a mapping whose name collides with any existing
mapping fails client-side with a duplicate-name error before any create
call; when no existing mapping bears the name, the create succeeds, appends
the new mapping, and the post-create duplicate cleanup deletes nothing. -/
theorem claim3_duplicate_create (backend : List MappingRec) (freshId : Nat)
    (cfg : MappingConfig) (path : String) (file : Option CsvFile) (f : CsvFile) :
    ((∃ m ∈ backend, m.name = cfg.name) →
      resourceCreateMapping backend freshId cfg path file =
        .error ("mapping with name \x27" ++ cfg.name ++ "\x27 already exists"))
    ∧ ((∀ m ∈ backend, m.name ≠ cfg.name) →
        validateMatchersAgainstCSV cfg.matchers
          (rowsFromCSV f.headers f.records) = .ok () →
        resourceCreateMapping backend freshId cfg path (some f) =
          .ok (backend ++ [⟨freshId, cfg.name, cfg.description, cfg.priority,
                 f.fileName, formatMatchers cfg.matchers⟩],
               toString freshId ++ ":" ++ sha256hex f.content)) :=
  ⟨resourceCreateMapping_dup_error backend freshId cfg path file,
   fun hno hval => resourceCreateMapping_ok_of_no_dup backend freshId cfg path f hno hval⟩

/-- C3 witness: both branches of the amended claim at concrete inputs. -/
theorem claim3_witness :
    resourceCreateMapping [sampleMapping] 2 sampleCfg "p" (some sampleCsv) =
      .error ("mapping with name \x27" ++ sampleCfg.name ++ "\x27 already exists")
    ∧ resourceCreateMapping [] 2 sampleCfg "p" (some sampleCsv) =
      .ok ([⟨2, sampleCfg.name, sampleCfg.description, sampleCfg.priority,
             sampleCsv.fileName, formatMatchers sampleCfg.matchers⟩],
           toString 2 ++ ":" ++ sha256hex sampleCsv.content) :=
  ⟨(claim3_duplicate_create [sampleMapping] 2 sampleCfg "p" (some sampleCsv)
      sampleCsv).1 ⟨sampleMapping, by decide, by decide⟩,
   by
    have h := (claim3_duplicate_create ([] : List MappingRec) 2 sampleCfg "p"
      (some sampleCsv) sampleCsv).2 (by simp) (by rfl)
    simpa using h⟩

/-- C4 counterexample: with a remote extraction named `x` already present
(under id 1), creating a second extraction named `x` performs no
duplicate-name scan and no cleanup: the create succeeds and both extractions
remain, refuting the claim that the extraction resource enforces
uniqueness-by-name client-side. -/
theorem claim4_counterexample :
    resourceCreateExtraction [sampleExtraction] 2 sampleExtractionCfg
      = .ok ([sampleExtraction,
              ⟨2, "x", "", 0, "a", "", false, "r", false⟩], "2") := by
  rfl

/-- C4 (amended): only the mapping resource enforces uniqueness-by-name
client-side: its create pre-scans for a name collision and its create/update
clean up same-name different-id duplicates afterwards; the extraction
resource posts its payload with no name scan and no cleanup, on create and
on update alike. -/
theorem claim4_uniqueness_mapping_only :
    (∀ (backend : List MappingRec) (freshId : Nat) (cfg : MappingConfig)
        (path : String) (file : Option CsvFile),
      (∃ m ∈ backend, m.name = cfg.name) →
      resourceCreateMapping backend freshId cfg path file =
        .error ("mapping with name \x27" ++ cfg.name ++ "\x27 already exists"))
    ∧ (∀ (backend : List MappingRec) (freshId : Nat) (cfg : MappingConfig)
        (path : String) (file : Option CsvFile) (st : List MappingRec) (cid : String),
        resourceCreateMapping backend freshId cfg path file = .ok (st, cid) →
        ∀ m ∈ st, m.name = cfg.name → toString m.id = toString freshId)
    ∧ (∀ (backend : List MappingRec) (freshId : Nat) (id : String)
        (nameChanged hashChanged : Bool) (cfg : MappingConfig) (path : String)
        (file : Option CsvFile) (st : List MappingRec) (cid : String),
        resourceUpdateMapping backend freshId id nameChanged hashChanged cfg
          path file = .ok (st, cid) →
        ∀ m ∈ st, m.name = cfg.name → toString m.id = toString freshId)
    ∧ (∀ (backend : List ExtractionRec) (freshId : Nat) (cfg : ExtractionConfig),
        resourceCreateExtraction backend freshId cfg =
          .ok (backend ++ [⟨freshId, cfg.name, cfg.description, cfg.priority,
                 cfg.attr, cfg.condition, cfg.disabled, cfg.regex, cfg.pre⟩],
               toString freshId))
    ∧ (∀ (backend : List ExtractionRec) (id : String) (cfg : ExtractionConfig),
        resourceUpdateExtraction backend id cfg =
          .ok (backend.map (fun e =>
            if toString e.id == id then
              ⟨e.id, cfg.name, cfg.description, cfg.priority, cfg.attr,
               cfg.condition, cfg.disabled, cfg.regex, cfg.pre⟩
            else e))) :=
  ⟨fun backend freshId cfg path file h =>
      resourceCreateMapping_dup_error backend freshId cfg path file h,
   fun backend freshId cfg path file st cid h =>
      resourceCreateMapping_ok_names backend freshId cfg path file st cid h,
   fun backend freshId id nc hc cfg path file st cid h =>
      resourceUpdateMapping_ok_names backend freshId id nc hc cfg path file st cid h,
   fun _ _ _ => rfl,
   fun _ _ _ => rfl⟩

/-- C4 witness: the mapping branches at concrete inputs (duplicate-name
rejection; no same-name different-id mapping surviving a successful create). -/
theorem claim4_witness :
    resourceCreateMapping [sampleMapping] 2 sampleCfg "p" (some sampleCsv) =
      .error ("mapping with name \x27" ++ sampleCfg.name ++ "\x27 already exists")
    ∧ (∀ m ∈ [(⟨2, sampleCfg.name, sampleCfg.description, sampleCfg.priority,
          sampleCsv.fileName, formatMatchers sampleCfg.matchers⟩ : MappingRec)],
        m.name = sampleCfg.name → toString m.id = toString 2) :=
  ⟨(claim4_uniqueness_mapping_only).1 [sampleMapping] 2 sampleCfg "p"
      (some sampleCsv) ⟨sampleMapping, by decide, by decide⟩,
   (claim4_uniqueness_mapping_only).2.1 [] 2 sampleCfg "p" (some sampleCsv)
      [⟨2, sampleCfg.name, sampleCfg.description, sampleCfg.priority,
         sampleCsv.fileName, formatMatchers sampleCfg.matchers⟩]
      (toString 2 ++ ":" ++ sha256hex sampleCsv.content) (by rfl)⟩

/-- C9: splitting every matcher on ` && ` for the API and joining the
resulting arrays back with ` && ` for state is the identity on the matcher
list. -/
theorem claim9_matchers_roundtrip (xs : List String) :
    formatMatchersStringForState
      (GoVal.list ((formatMatchers xs).map
        (fun parts => GoVal.list (parts.map GoVal.str)))) = xs := by
  unfold formatMatchers
  rw [List.map_map]
  exact matchers_roundtrip_aux xs

end Keep
